import Mathlib

/-!
Shallow embedding of the authentication core of the StepUp backend
(src/src/auth/auth.service.ts, class AuthService).

The service orchestrates four collaborators:
* a user repository (TypeORM): findOneById / findOneByEmail / save;
* a JWT signer (jwtService.signAsync with an access and a refresh config);
* two secret hashers (bcrypt for passwords, argon2 for refresh-token proofs);
* a Redis client holding one refresh-token slot per user (setex / get / del).

Cryptographic primitives and the signer are modelled as idealized injective
encodings: hashing is one-way tagged concatenation whose verifier succeeds
exactly on the preimage (no collisions), and a signed JWT is determined by the
signing secret, the payload subject and the signing instant, the instant being
a logical clock that makes two signings at different moments distinct (the
timestamp a real signer embeds).  State (the user table, the Redis keyspace,
the clock) is passed explicitly; a thrown NestJS exception is an
`Except.error`.
-/

namespace StepUp

/-- Digit characters of n, most significant first; the first argument is
structural fuel (any bound of n makes the recursion total). -/
def natStrAux : Nat → Nat → List Char
  | 0, _ => []
  | fuel + 1, n =>
    if n = 0 then [] else natStrAux fuel (n / 10) ++ [Nat.digitChar (n % 10)]

/-- Decimal rendering of a natural number, digit characters most significant
first: the model of TS template-string interpolation of a number. -/
def natStr (n : Nat) : String :=
  if n = 0 then "0" else String.mk (natStrAux n n)

/-- Model of bcrypt hashing of a login password (SecretHasher.hashPassword):
an injective tagged encoding of the raw secret. -/
def hashPassword (raw : String) : String :=
  "$2b$10$" ++ raw

/-- Model of bcrypt.compare(raw, stored) (SecretHasher.verifyPassword): true
exactly when stored is the password hash of raw; never throws. -/
def verifyPassword (raw stored : String) : Bool :=
  stored == hashPassword raw

/-- Model of argon2.hash of a refresh token (SecretHasher.hashRefreshSecret). -/
def hashRefreshSecret (raw : String) : String :=
  "$argon2id$" ++ raw

/-- Model of argon2.verify(stored, raw) (SecretHasher.verifyRefreshSecret). -/
def verifyRefreshSecret (stored raw : String) : Bool :=
  stored == hashRefreshSecret raw

/-- A JWT signing configuration (secret material); the access and the refresh
token are signed under two distinct configurations. -/
structure JwtSignConfig where
  secret : String
deriving DecidableEq, Repr

/-- The implicit default signing config of jwtService.signAsync(payload). -/
def accessJwtConfig : JwtSignConfig :=
  ⟨"access-secret"⟩

/-- The refresh signing config injected from refresh-jwt.config. -/
def refreshJwtConfig : JwtSignConfig :=
  ⟨"refresh-secret"⟩

/-- Model of jwtService.signAsync over payload AuthJwtPayload = (sub : userId):
an opaque signed string determined by the secret, the subject and the signing
instant iat (the freshness source). -/
def signJwt (cfg : JwtSignConfig) (sub : Nat) (iat : Nat) : String :=
  cfg.secret ++ "." ++ natStr sub ++ "." ++ natStr iat

/-- A Redis value together with the TTL it was set with. -/
structure RedisEntry where
  value : String
  ttl : Nat
deriving DecidableEq, Repr

/-- The Redis keyspace: each key holds at most one entry. -/
abbrev RedisDB : Type := String → Option RedisEntry

/-- redis.setex key ttl value: atomic upsert of value-with-TTL. -/
def RedisDB.setex (db : RedisDB) (key : String) (ttl : Nat) (value : String) :
    RedisDB :=
  fun k => if k = key then some ⟨value, ttl⟩ else db k

/-- redis.del key: idempotent removal. -/
def RedisDB.del (db : RedisDB) (key : String) : RedisDB :=
  fun k => if k = key then none else db k

/-- redis.get key: the stored value, or none when absent/expired. -/
def RedisDB.get (db : RedisDB) (key : String) : Option String :=
  (db key).map RedisEntry.value

/-- The user entity: password is absent for OAuth-only accounts. -/
structure User where
  id : Nat
  email : String
  password : Option String
deriving DecidableEq, Repr

/-- UpdatePasswordRequestDto of the password-change endpoint. -/
structure UpdatePasswordRequestDto where
  currentPassword : String
  newPassword : String
  newPasswordConfirm : String
deriving DecidableEq, Repr

/-- CreateUserRequestDto: the identity attributes handed to the OAuth path. -/
structure CreateUserRequestDto where
  email : String
deriving DecidableEq, Repr

/-- userRepository.findOneById: the first row whose id matches. -/
def findOneById (users : List User) (id : Nat) : Option User :=
  users.find? (fun u => u.id == id)

/-- userRepository.findOneByEmail: the first row whose email matches. -/
def findOneByEmail (users : List User) (email : String) : Option User :=
  users.find? (fun u => u.email == email)

/-- userRepository.save on a loaded entity: replaces the row with the same id,
appending a new row when none exists. -/
def saveUser (users : List User) (u : User) : List User :=
  if users.any (fun v => v.id == u.id) then
    users.map (fun v => if v.id == u.id then u else v)
  else users ++ [u]

/-- The NestJS exceptions AuthService raises. -/
inductive AuthError where
  | unauthorized (msg : String)
  | badRequest (msg : String)
deriving DecidableEq, Repr

/-- The mutable world the service acts on: the user table, a fresh-id source
for created users, the Redis keyspace and the signing clock. -/
structure AuthState where
  users : List User
  nextUserId : Nat
  redis : RedisDB
  clock : Nat

/-- TokenResponse: the pair returned by generateTokens / refreshToken. -/
structure TokenResponse where
  accessToken : String
  refreshToken : String
deriving DecidableEq, Repr

/-- The result shape of login: the token pair plus the user id. -/
structure LoginResponse where
  id : Nat
  accessToken : String
  refreshToken : String
deriving DecidableEq, Repr

/-- The (id : userId) payload returned by the validation operations. -/
structure UserIdResponse where
  id : Nat
deriving DecidableEq, Repr

/-- AuthService.getRefreshTokenKey: the Redis key of a user's slot. -/
def getRefreshTokenKey (userId : Nat) : String :=
  "userId:" ++ natStr userId ++ ":refreshToken"

/-- AuthService.generateTokens: signs the payload under the access and the
refresh configs at the current instant; pure issuance, no storage effect
beyond advancing the signing clock. -/
def generateTokens (userId : Nat) (st : AuthState) : TokenResponse × AuthState :=
  (⟨signJwt accessJwtConfig userId st.clock, signJwt refreshJwtConfig userId st.clock⟩,
    { st with clock := st.clock + 1 })

/-- AuthService.login: issue a pair, hash the refresh token with argon2, setex
it under the user's key with the configured TTL (REDIS_REFRESH_EXPIRE_SECONDS),
return id plus the pair. -/
def login (ttl : Nat) (userId : Nat) (st : AuthState) : LoginResponse × AuthState :=
  let pair := (generateTokens userId st).1
  let st1 := (generateTokens userId st).2
  let hashedRefreshToken := hashRefreshSecret pair.refreshToken
  let key := getRefreshTokenKey userId
  (⟨userId, pair.accessToken, pair.refreshToken⟩,
    { st1 with redis := st1.redis.setex key ttl hashedRefreshToken })

/-- AuthService.logout: delete the user's refresh-token slot. -/
def logout (userId : Nat) (st : AuthState) : AuthState :=
  { st with redis := st.redis.del (getRefreshTokenKey userId) }

/-- AuthService.updatePassword, exactly as the source orders its checks; on a
throw the state is not touched (the save on line 83 is never reached). -/
def updatePassword (userId : Nat) (dto : UpdatePasswordRequestDto)
    (st : AuthState) : Except AuthError AuthState :=
  match findOneById st.users userId with
  | none => .error (.unauthorized "존재하지 않는 유저입니다.")
  | some user =>
    match user.password with
    | none => .error (.unauthorized "비밀번호가 없는 계정입니다.")
    | some pw =>
      if !verifyPassword dto.currentPassword pw then
        .error (.unauthorized "현재 비밀번호가 올바르지 않습니다.")
      else if dto.newPassword != dto.newPasswordConfirm then
        .error (.badRequest "새 비밀번호가 서로 일치하지 않습니다.")
      else
        .ok { st with
          users := saveUser st.users { user with password := some dto.newPassword } }

/-- The state updatePassword leaves behind: on a throw the world is the one it
started from (abrupt-termination semantics of the TS method). -/
def runUpdatePassword (userId : Nat) (dto : UpdatePasswordRequestDto)
    (st : AuthState) : AuthState :=
  match updatePassword userId dto st with
  | .ok st1 => st1
  | .error _ => st

/-- AuthService.refreshToken (RTR rotation): same issue-hash-setex sequence as
login, returning only the pair. -/
def refreshToken (ttl : Nat) (userId : Nat) (st : AuthState) :
    TokenResponse × AuthState :=
  let pair := (generateTokens userId st).1
  let st1 := (generateTokens userId st).2
  let hashedRefreshToken := hashRefreshSecret pair.refreshToken
  let key := getRefreshTokenKey userId
  (pair, { st1 with redis := st1.redis.setex key ttl hashedRefreshToken })

/-- AuthService.updateHashedRefreshToken: setex an already-hashed value under
the user's key with the configured TTL. -/
def updateHashedRefreshToken (ttl : Nat) (userId : Nat)
    (hashedRefreshToken : String) (st : AuthState) : AuthState :=
  { st with
    redis := st.redis.setex (getRefreshTokenKey userId) ttl hashedRefreshToken }

/-- AuthService.validateLocalUser: lookup by email, reject missing user or
missing password hash, bcrypt-compare, return the found id.  Reads only: the
signature carries no successor state. -/
def validateLocalUser (email : String) (password : String) (st : AuthState) :
    Except AuthError UserIdResponse :=
  match findOneByEmail st.users email with
  | none => .error (.unauthorized "존재하지 않는 유저 정보입니다.")
  | some user =>
    match user.password with
    | none => .error (.unauthorized "존재하지 않는 유저 정보입니다.")
    | some pw =>
      if verifyPassword password pw then .ok ⟨user.id⟩
      else .error (.unauthorized "비밀번호를 확인해주세요.")

/-- Modelled from the spec: UserService.createUser (src/user/user.service.ts is
not under src/).  Per the spec, the OAuth path creates a new identity via the
user store with no password hash set and returns the created identity. -/
def createUser (dto : CreateUserRequestDto) (st : AuthState) : User × AuthState :=
  let u : User := ⟨st.nextUserId, dto.email, none⟩
  (u, { st with users := st.users ++ [u], nextUserId := st.nextUserId + 1 })

/-- AuthService.validateOAuthUser: return the identity found by email, else
create one. -/
def validateOAuthUser (dto : CreateUserRequestDto) (st : AuthState) :
    User × AuthState :=
  match findOneByEmail st.users dto.email with
  | some user => (user, st)
  | none => createUser dto st

/-- AuthService.getHashedRefreshToken: read-through to redis.get on the user's
key. -/
def getHashedRefreshToken (userId : Nat) (st : AuthState) : Option String :=
  st.redis.get (getRefreshTokenKey userId)

/-- AuthService.validateRefreshToken: Unauthorized when the slot is absent or
the argon2 verification fails, else the (id : userId) payload.  Reads only. -/
def validateRefreshToken (userId : Nat) (rawRefreshToken : String)
    (st : AuthState) : Except AuthError UserIdResponse :=
  match getHashedRefreshToken userId st with
  | none => .error (.unauthorized "Invalid Refresh Token")
  | some hashed =>
    if verifyRefreshSecret hashed rawRefreshToken then .ok ⟨userId⟩
    else .error (.unauthorized "Invalid Refresh Token")

/-- Freshness invariant of reachable states: every refresh-token hash sitting
in Redis was produced from a token signed strictly before the current signing
instant.  It holds of the empty initial world and is preserved by every
operation; it is what makes a freshly signed token distinct from every raw
credential the store already vouches for. -/
def FreshTokens (st : AuthState) : Prop :=
  ∀ k e, st.redis k = some e →
    ∀ u n, e.value = hashRefreshSecret (signJwt refreshJwtConfig u n) → n < st.clock

/-- The world with a given user table, no Redis entries, clock zero. -/
def initState (users : List User) : AuthState :=
  ⟨users, 0, fun _ => none, 0⟩

/-- A user row with a bcrypt-hashed password, used by the concrete witnesses. -/
def storedUser : User :=
  ⟨1, "user@stepup.dev", some (hashPassword "oldpass")⟩

/-- A world holding exactly storedUser, with an empty Redis keyspace. -/
def pwState : AuthState :=
  ⟨[storedUser], 2, fun _ => none, 0⟩

/-- A well-formed password-change request for storedUser. -/
def pwDto : UpdatePasswordRequestDto :=
  ⟨"oldpass", "newpass", "newpass"⟩

/-! ## Auxiliary lemmas -/

theorem digitChar_inj_lt : ∀ d < 10, ∀ e < 10,
    Nat.digitChar d = Nat.digitChar e → d = e := by
  decide

theorem map_digitChar_inj : ∀ l1 l2 : List Nat, (∀ d ∈ l1, d < 10) →
    (∀ d ∈ l2, d < 10) → l1.map Nat.digitChar = l2.map Nat.digitChar → l1 = l2 := by
  intro l1
  induction l1 with
  | nil =>
    intro l2 _ _ h
    cases l2 with
    | nil => rfl
    | cons c cs => simp at h
  | cons d ds ih =>
    intro l2 h1 h2 h
    cases l2 with
    | nil => simp at h
    | cons e es =>
      simp only [List.map_cons, List.cons.injEq] at h
      have hd : d = e :=
        digitChar_inj_lt d (h1 d (by simp)) e (h2 e (by simp)) h.1
      have ht : ds = es :=
        ih es (fun x hx => h1 x (by simp [hx])) (fun x hx => h2 x (by simp [hx])) h.2
      rw [hd, ht]

theorem natStrAux_eq_digits (fuel : Nat) : ∀ n ≤ fuel,
    natStrAux fuel n = ((Nat.digits 10 n).map Nat.digitChar).reverse := by
  induction fuel with
  | zero =>
    intro n hn
    have : n = 0 := Nat.le_zero.mp hn
    rw [this]
    simp [natStrAux]
  | succ f ih =>
    intro n hn
    by_cases h0 : n = 0
    · rw [h0]
      simp [natStrAux]
    · have hdiv : n / 10 ≤ f := by
        have : n / 10 < n := Nat.div_lt_self (Nat.pos_of_ne_zero h0) (by norm_num)
        omega
      rw [natStrAux, if_neg h0, ih (n / 10) hdiv,
        Nat.digits_def' (by norm_num : (1 : Nat) < 10) (Nat.pos_of_ne_zero h0)]
      simp

theorem natStr_eq_digits (n : Nat) :
    natStr n = if n = 0 then "0"
      else String.mk (((Nat.digits 10 n).map Nat.digitChar).reverse) := by
  unfold natStr
  rw [natStrAux_eq_digits n n (le_refl n)]

theorem natStr_injective : Function.Injective natStr := by
  intro m n h
  rw [natStr_eq_digits, natStr_eq_digits] at h
  by_cases hm : m = 0 <;> by_cases hn : n = 0
  · rw [hm, hn]
  · rw [if_pos hm, if_neg hn] at h
    have hd : ['0'] = ((Nat.digits 10 n).map Nat.digitChar).reverse :=
      congrArg String.data h
    have hd2 : (Nat.digits 10 n).map Nat.digitChar = ['0'] := by
      have := congrArg List.reverse hd
      simpa using this.symm
    cases hds : Nat.digits 10 n with
    | nil => rw [hds] at hd2; simp at hd2
    | cons d ds =>
      rw [hds] at hd2
      simp only [List.map_cons, List.cons.injEq] at hd2
      have hds0 : ds = [] := List.map_eq_nil_iff.mp hd2.2
      have hdlt : d < 10 :=
        Nat.digits_lt_base (by norm_num) (by rw [hds]; simp)
      have hd0 : d = 0 := digitChar_inj_lt d hdlt 0 (by norm_num) hd2.1
      have hn0 : n = 0 := by
        have hof := Nat.ofDigits_digits 10 n
        rw [hds, hds0, hd0] at hof
        simpa [Nat.ofDigits] using hof.symm
      exact absurd hn0 hn
  · rw [if_neg hm, if_pos hn] at h
    have hd : ((Nat.digits 10 m).map Nat.digitChar).reverse = ['0'] :=
      congrArg String.data h
    have hd2 : (Nat.digits 10 m).map Nat.digitChar = ['0'] := by
      have := congrArg List.reverse hd
      simpa using this
    cases hds : Nat.digits 10 m with
    | nil => rw [hds] at hd2; simp at hd2
    | cons d ds =>
      rw [hds] at hd2
      simp only [List.map_cons, List.cons.injEq] at hd2
      have hds0 : ds = [] := List.map_eq_nil_iff.mp hd2.2
      have hdlt : d < 10 :=
        Nat.digits_lt_base (by norm_num) (by rw [hds]; simp)
      have hd0 : d = 0 := digitChar_inj_lt d hdlt 0 (by norm_num) hd2.1
      have hm0 : m = 0 := by
        have hof := Nat.ofDigits_digits 10 m
        rw [hds, hds0, hd0] at hof
        simpa [Nat.ofDigits] using hof.symm
      exact absurd hm0 hm
  · rw [if_neg hm, if_neg hn] at h
    have hd : ((Nat.digits 10 m).map Nat.digitChar).reverse
        = ((Nat.digits 10 n).map Nat.digitChar).reverse :=
      congrArg String.data h
    have hd2 := List.reverse_injective hd
    have := map_digitChar_inj _ _
      (fun d hdm => Nat.digits_lt_base (by norm_num) hdm)
      (fun d hdn => Nat.digits_lt_base (by norm_num) hdn) hd2
    exact Nat.digits.injective 10 this

theorem natStr_dotFree (n : Nat) : ∀ c ∈ (natStr n).data, c ≠ '.' := by
  intro c hc
  rw [natStr_eq_digits] at hc
  by_cases hn : n = 0
  · rw [if_pos hn] at hc
    have : c = '0' := by simpa using hc
    rw [this]
    decide
  · rw [if_neg hn] at hc
    simp only [List.mem_reverse, List.mem_map] at hc
    obtain ⟨d, hd, hdc⟩ := hc
    have hdlt : d < 10 := Nat.digits_lt_base (by norm_num) hd
    have hne : ∀ e < 10, Nat.digitChar e ≠ '.' := by decide
    rw [← hdc]
    exact hne d hdlt

theorem string_append_left_cancel {a b c : String} (h : a ++ b = a ++ c) :
    b = c := by
  have hd := congrArg String.data h
  simp [String.data_append] at hd
  exact String.ext hd

theorem string_append_right_cancel {a b c : String} (h : a ++ c = b ++ c) :
    a = b := by
  have hd := congrArg String.data h
  simp [String.data_append] at hd
  exact String.ext hd

theorem dotSplit : ∀ a b u v : List Char, (∀ c ∈ a, c ≠ '.') →
    (∀ c ∈ b, c ≠ '.') → a ++ '.' :: u = b ++ '.' :: v → a = b ∧ u = v := by
  intro a
  induction a with
  | nil =>
    intro b u v _ hb h
    cases b with
    | nil => simpa using h
    | cons c cs =>
      simp only [List.nil_append, List.cons_append, List.cons.injEq] at h
      exact absurd h.1.symm (hb c (by simp))
  | cons c cs ih =>
    intro b u v ha hb h
    cases b with
    | nil =>
      simp only [List.cons_append, List.nil_append, List.cons.injEq] at h
      exact absurd h.1 (ha c (by simp))
    | cons d ds =>
      simp only [List.cons_append, List.cons.injEq] at h
      obtain ⟨he, ht⟩ := h
      obtain ⟨h1, h2⟩ := ih ds u v (fun x hx => ha x (by simp [hx]))
        (fun x hx => hb x (by simp [hx])) ht
      exact ⟨by rw [he, h1], h2⟩

theorem signJwt_inj {cfg : JwtSignConfig} {s n t m : Nat}
    (h : signJwt cfg s n = signJwt cfg t m) : s = t ∧ n = m := by
  unfold signJwt at h
  have h2 : natStr s ++ "." ++ natStr n = natStr t ++ "." ++ natStr m := by
    have ha : ∀ x y : String, cfg.secret ++ "." ++ x ++ "." ++ y
        = (cfg.secret ++ ".") ++ (x ++ "." ++ y) := by
      intro x y
      simp [String.ext_iff, String.data_append]
    rw [ha, ha] at h
    exact string_append_left_cancel h
  have hd := congrArg String.data h2
  simp only [String.data_append] at hd
  have hd2 : (natStr s).data ++ '.' :: (natStr n).data
      = (natStr t).data ++ '.' :: (natStr m).data := by
    simpa using hd
  obtain ⟨hs, hn⟩ := dotSplit _ _ _ _ (natStr_dotFree s) (natStr_dotFree t) hd2
  exact ⟨natStr_injective (String.ext hs), natStr_injective (String.ext hn)⟩

theorem getRefreshTokenKey_injective : Function.Injective getRefreshTokenKey := by
  intro u v h
  unfold getRefreshTokenKey at h
  have h1 : "userId:" ++ natStr u = "userId:" ++ natStr v :=
    string_append_right_cancel h
  exact natStr_injective (string_append_left_cancel h1)

theorem hashRefreshSecret_injective : Function.Injective hashRefreshSecret := by
  intro a b h
  exact string_append_left_cancel h

theorem hashRefreshSecret_ne_raw (s : String) : hashRefreshSecret s ≠ s := by
  intro h
  have hd := congrArg (fun t => t.data.length) h
  simp [hashRefreshSecret, String.data_append] at hd
  omega

theorem verifyRefreshSecret_eq_true {h r : String} :
    verifyRefreshSecret h r = true ↔ h = hashRefreshSecret r := by
  simp [verifyRefreshSecret]

theorem freshTokens_init (users : List User) : FreshTokens (initState users) := by
  intro k e hk
  simp [initState] at hk

theorem freshTokens_login (ttl u : Nat) (st : AuthState) (h : FreshTokens st) :
    FreshTokens (login ttl u st).2 := by
  intro k e hk w n hv
  by_cases hkey : k = getRefreshTokenKey u
  · simp only [login, generateTokens, RedisDB.setex, hkey, if_pos rfl] at hk
    have he : e = ⟨hashRefreshSecret (signJwt refreshJwtConfig u st.clock), ttl⟩ := by
      simpa using hk.symm
    rw [he] at hv
    have hv2 : hashRefreshSecret (signJwt refreshJwtConfig u st.clock)
        = hashRefreshSecret (signJwt refreshJwtConfig w n) := hv
    have hsig : signJwt refreshJwtConfig u st.clock = signJwt refreshJwtConfig w n :=
      hashRefreshSecret_injective hv2
    have : n = st.clock := (signJwt_inj hsig).2.symm
    simp only [login, generateTokens]
    omega
  · have hk2 : st.redis k = some e := by
      simpa [login, generateTokens, RedisDB.setex, hkey] using hk
    have := h k e hk2 w n hv
    simp only [login, generateTokens]
    omega

/-! ## Claim theorems -/

/-- C2 (the source side): updatePassword persists the raw newPassword string,
not its bcrypt hash, into the password field, after which validateLocalUser
with the new password fails Unauthorized — contradicting the claimed
hash-before-persist behaviour the spec marks as the intent. -/
theorem updatePassword_persists_raw_newPassword :
    findOneById (runUpdatePassword 1 pwDto pwState).users 1
      = some ⟨1, "user@stepup.dev", some "newpass"⟩
    ∧ some "newpass" ≠ some (hashPassword "newpass")
    ∧ validateLocalUser "user@stepup.dev" "newpass" (runUpdatePassword 1 pwDto pwState)
      = .error (.unauthorized "비밀번호를 확인해주세요.") := by
  refine ⟨by decide, by decide, rfl⟩

/-- C3: validateRefreshToken fails with Unauthorized exactly when the user's
slot is absent (or expired) or the stored hash does not verify against the raw
token; otherwise it returns the (id : userId) payload; no other error kind and
no other check occur. -/
theorem validateRefreshToken_spec (u : Nat) (t : String) (st : AuthState) :
    (validateRefreshToken u t st = .error (.unauthorized "Invalid Refresh Token")
      ↔ getHashedRefreshToken u st = none
        ∨ ∃ h, getHashedRefreshToken u st = some h ∧ verifyRefreshSecret h t = false)
    ∧ (∀ h, getHashedRefreshToken u st = some h → verifyRefreshSecret h t = true →
        validateRefreshToken u t st = .ok ⟨u⟩)
    ∧ (validateRefreshToken u t st = .ok ⟨u⟩
        ∨ validateRefreshToken u t st
            = .error (.unauthorized "Invalid Refresh Token")) := by
  unfold validateRefreshToken
  cases hg : getHashedRefreshToken u st with
  | none => simp
  | some h =>
    cases hv : verifyRefreshSecret h t with
    | false => simp [hv]
    | true => simp [hv]

/-- C3 witness: on a state freshly written by updateHashedRefreshToken, the
success branch of validateRefreshToken_spec yields the (id : 5) payload. -/
theorem validateRefreshToken_spec_witness :
    validateRefreshToken 5 "tok"
      (updateHashedRefreshToken 60 5 (hashRefreshSecret "tok") (initState []))
      = .ok ⟨5⟩ :=
  (validateRefreshToken_spec 5 "tok"
    (updateHashedRefreshToken 60 5 (hashRefreshSecret "tok") (initState []))).2.1
    (hashRefreshSecret "tok") (by decide) (by decide)

/-- C4: updatePassword raises Unauthorized for a missing user, a passwordless
(OAuth-only) user, or a failing current-password check; it raises BadRequest
on a confirmation mismatch only after the current-password check has passed
(a failing current password wins regardless of the mismatch); and on every
failing path the world — hence the stored password hash — is unchanged. -/
theorem updatePassword_guards (u : Nat) (dto : UpdatePasswordRequestDto)
    (st : AuthState) :
    (findOneById st.users u = none →
      updatePassword u dto st = .error (.unauthorized "존재하지 않는 유저입니다."))
    ∧ (∀ user, findOneById st.users u = some user → user.password = none →
      updatePassword u dto st = .error (.unauthorized "비밀번호가 없는 계정입니다."))
    ∧ (∀ user pw, findOneById st.users u = some user → user.password = some pw →
      verifyPassword dto.currentPassword pw = false →
      updatePassword u dto st
        = .error (.unauthorized "현재 비밀번호가 올바르지 않습니다."))
    ∧ (∀ user pw, findOneById st.users u = some user → user.password = some pw →
      verifyPassword dto.currentPassword pw = true →
      dto.newPassword ≠ dto.newPasswordConfirm →
      updatePassword u dto st
        = .error (.badRequest "새 비밀번호가 서로 일치하지 않습니다."))
    ∧ (∀ e, updatePassword u dto st = .error e → runUpdatePassword u dto st = st) := by
  refine ⟨?_, ?_, ?_, ?_, ?_⟩
  · intro hf
    simp [updatePassword, hf]
  · intro user hf hp
    simp [updatePassword, hf, hp]
  · intro user pw hf hp hv
    simp [updatePassword, hf, hp, hv]
  · intro user pw hf hp hv hne
    simp [updatePassword, hf, hp, hv, hne]
  · intro e he
    simp [runUpdatePassword, he]

/-- C4 witness: a wrong current password combined with a mismatched
confirmation still fails Unauthorized (the mismatch is not reached). -/
theorem updatePassword_guards_witness :
    updatePassword 1 ⟨"wrong", "a", "b"⟩ pwState
      = .error (.unauthorized "현재 비밀번호가 올바르지 않습니다.") :=
  (updatePassword_guards 1 ⟨"wrong", "a", "b"⟩ pwState).2.2.1
    storedUser (hashPassword "oldpass") (by decide) (by decide) (by decide)

/-- C5: after logout, validating any raw token for that user fails with
Unauthorized, and logout is total and idempotent (deleting an absent slot is
indistinguishable from deleting a present one). -/
theorem logout_invalidates (u : Nat) (t : String) (st : AuthState) :
    validateRefreshToken u t (logout u st)
        = .error (.unauthorized "Invalid Refresh Token")
    ∧ logout u (logout u st) = logout u st := by
  constructor
  · simp [validateRefreshToken, getHashedRefreshToken, logout, RedisDB.get,
      RedisDB.del]
  · have hdel : (st.redis.del (getRefreshTokenKey u)).del (getRefreshTokenKey u)
        = st.redis.del (getRefreshTokenKey u) := by
      funext k
      by_cases hk : k = getRefreshTokenKey u <;> simp [RedisDB.del, hk]
    simp [logout, hdel]

/-- C6: refreshToken performs exactly the issuance-hash-store sequence of
login — the successor worlds coincide — and the two differ only in result
shape: the token pairs agree and login additionally reports the user id. -/
theorem refreshToken_eq_login (ttl u : Nat) (st : AuthState) :
    (refreshToken ttl u st).2 = (login ttl u st).2
    ∧ (refreshToken ttl u st).1.accessToken = (login ttl u st).1.accessToken
    ∧ (refreshToken ttl u st).1.refreshToken = (login ttl u st).1.refreshToken
    ∧ (login ttl u st).1.id = u :=
  ⟨rfl, rfl, rfl, rfl⟩

/-- C7: validateLocalUser fails with Unauthorized exactly when no identity
with the email exists, the identity has no password hash, or the password
fails the bcrypt verifier; otherwise it returns the found identity's id.  It
never raises BadRequest, and its signature returns no successor state (no
store is written). -/
theorem validateLocalUser_spec (e p : String) (st : AuthState) :
    ((∃ msg, validateLocalUser e p st = .error (.unauthorized msg))
      ↔ findOneByEmail st.users e = none
        ∨ (∃ user, findOneByEmail st.users e = some user ∧ user.password = none)
        ∨ (∃ user pw, findOneByEmail st.users e = some user
            ∧ user.password = some pw ∧ verifyPassword p pw = false))
    ∧ (∀ user pw, findOneByEmail st.users e = some user → user.password = some pw →
        verifyPassword p pw = true → validateLocalUser e p st = .ok ⟨user.id⟩)
    ∧ (∀ msg, validateLocalUser e p st ≠ .error (.badRequest msg)) := by
  unfold validateLocalUser
  cases hf : findOneByEmail st.users e with
  | none => simp
  | some user =>
    cases hp : user.password with
    | none =>
      simp [hp]
      intro w pw hw hpw
      rw [← hw, hp] at hpw
      exact Option.noConfusion hpw
    | some pw =>
      cases hv : verifyPassword p pw with
      | false =>
        simp [hp, hv]
        intro w pw2 hw hpw2
        rw [← hw, hp] at hpw2
        have h2 : pw = pw2 := by injection hpw2
        rw [← h2]
        exact hv
      | true =>
        simp [hp, hv]
        intro w pw2 hw hpw2 hv2
        rw [hw]

/-- C7 witness: the stored user with the correct password is accepted and the
stored id is returned. -/
theorem validateLocalUser_spec_witness :
    validateLocalUser "user@stepup.dev" "oldpass" pwState = .ok ⟨1⟩ :=
  (validateLocalUser_spec "user@stepup.dev" "oldpass" pwState).2.1
    storedUser (hashPassword "oldpass") (by decide) (by decide) (by decide)

/-- C8: validateOAuthUser returns the stored identity when one with the dto's
email exists, otherwise creates (and persists) one with no password hash; a
second call with the same dto returns the same identity and leaves the world
unchanged, so at most one identity is ever created. -/
theorem validateOAuthUser_idempotent (dto : CreateUserRequestDto)
    (st : AuthState) :
    (∀ user, findOneByEmail st.users dto.email = some user →
      validateOAuthUser dto st = (user, st))
    ∧ (findOneByEmail st.users dto.email = none →
      (validateOAuthUser dto st).1.password = none
      ∧ (validateOAuthUser dto st).2.users
          = st.users ++ [(validateOAuthUser dto st).1])
    ∧ validateOAuthUser dto (validateOAuthUser dto st).2
        = ((validateOAuthUser dto st).1, (validateOAuthUser dto st).2) := by
  refine ⟨?_, ?_, ?_⟩
  · intro user hf
    simp [validateOAuthUser, hf]
  · intro hf
    simp [validateOAuthUser, hf, createUser]
  · cases hf : findOneByEmail st.users dto.email with
    | some user => simp [validateOAuthUser, hf]
    | none =>
      have hfind : findOneByEmail (st.users ++ [⟨st.nextUserId, dto.email, none⟩])
          dto.email = some ⟨st.nextUserId, dto.email, none⟩ := by
        unfold findOneByEmail at hf ⊢
        rw [List.find?_append, hf]
        simp
      simp [validateOAuthUser, hf, createUser, hfind]

/-- C8 witness: on an empty user table the OAuth path creates an identity with
no password hash and appends exactly it to the table. -/
theorem validateOAuthUser_idempotent_witness :
    (validateOAuthUser ⟨"oauth@stepup.dev"⟩ (initState [])).1.password = none
    ∧ (validateOAuthUser ⟨"oauth@stepup.dev"⟩ (initState [])).2.users
        = (initState []).users
          ++ [(validateOAuthUser ⟨"oauth@stepup.dev"⟩ (initState [])).1] :=
  (validateOAuthUser_idempotent ⟨"oauth@stepup.dev"⟩ (initState [])).2.1 (by decide)

/-- C9: every store operation of the service addresses the slot under exactly
the key string built by getRefreshTokenKey (userId:<decimal id>:refreshToken),
writes there the argon2 hash of the issued refresh token (never the raw
token — the hash always differs from it) with the configured TTL, and touches
no other key. -/
theorem refreshStore_key_and_value (ttl u : Nat) (hashed : String)
    (st : AuthState) :
    getRefreshTokenKey u = "userId:" ++ natStr u ++ ":refreshToken"
    ∧ (login ttl u st).2.redis (getRefreshTokenKey u)
        = some ⟨hashRefreshSecret (login ttl u st).1.refreshToken, ttl⟩
    ∧ (refreshToken ttl u st).2.redis (getRefreshTokenKey u)
        = some ⟨hashRefreshSecret (refreshToken ttl u st).1.refreshToken, ttl⟩
    ∧ (updateHashedRefreshToken ttl u hashed st).redis (getRefreshTokenKey u)
        = some ⟨hashed, ttl⟩
    ∧ hashRefreshSecret (login ttl u st).1.refreshToken
        ≠ (login ttl u st).1.refreshToken
    ∧ getHashedRefreshToken u st = st.redis.get (getRefreshTokenKey u)
    ∧ (∀ k, k ≠ getRefreshTokenKey u → (login ttl u st).2.redis k = st.redis k)
    ∧ (∀ k, k ≠ getRefreshTokenKey u →
        (refreshToken ttl u st).2.redis k = st.redis k)
    ∧ (∀ k, k ≠ getRefreshTokenKey u → (logout u st).redis k = st.redis k)
    ∧ (∀ k, k ≠ getRefreshTokenKey u →
        (updateHashedRefreshToken ttl u hashed st).redis k = st.redis k) := by
  refine ⟨rfl, ?_, ?_, ?_, hashRefreshSecret_ne_raw _, rfl, ?_, ?_, ?_, ?_⟩
  · simp [login, generateTokens, RedisDB.setex]
  · simp [refreshToken, generateTokens, RedisDB.setex]
  · simp [updateHashedRefreshToken, RedisDB.setex]
  · intro k hk
    simp [login, generateTokens, RedisDB.setex, hk]
  · intro k hk
    simp [refreshToken, generateTokens, RedisDB.setex, hk]
  · intro k hk
    simp [logout, RedisDB.del, hk]
  · intro k hk
    simp [updateHashedRefreshToken, RedisDB.setex, hk]

/-- C9 witness: the key of user 42 renders with the decimal id, login writes
the hash of the issued refresh token there, and the slot of user 7 is not
touched by user 42's login. -/
theorem refreshStore_key_and_value_witness :
    getRefreshTokenKey 42 = "userId:42:refreshToken"
    ∧ (login 60 42 (initState [])).2.redis (getRefreshTokenKey 42)
        = some ⟨hashRefreshSecret (login 60 42 (initState [])).1.refreshToken, 60⟩
    ∧ (login 60 42 (initState [])).2.redis (getRefreshTokenKey 7)
        = (initState []).redis (getRefreshTokenKey 7) := by
  refine ⟨by decide, (refreshStore_key_and_value 60 42 "h" (initState [])).2.1,
    (refreshStore_key_and_value 60 42 "h" (initState [])).2.2.2.2.2.2.1
      (getRefreshTokenKey 7) (by decide)⟩

/-- C10: the key function is injective over user ids, so every operation
invoked for user u leaves the slot of any other user v untouched; the
validation reads return no successor state at all. -/
theorem per_user_isolation (ttl u v : Nat) (hashed : String) (st : AuthState)
    (huv : u ≠ v) :
    Function.Injective getRefreshTokenKey
    ∧ getRefreshTokenKey u ≠ getRefreshTokenKey v
    ∧ (login ttl u st).2.redis (getRefreshTokenKey v)
        = st.redis (getRefreshTokenKey v)
    ∧ (refreshToken ttl u st).2.redis (getRefreshTokenKey v)
        = st.redis (getRefreshTokenKey v)
    ∧ (logout u st).redis (getRefreshTokenKey v) = st.redis (getRefreshTokenKey v)
    ∧ (updateHashedRefreshToken ttl u hashed st).redis (getRefreshTokenKey v)
        = st.redis (getRefreshTokenKey v) := by
  have hkey : getRefreshTokenKey v ≠ getRefreshTokenKey u :=
    fun h => huv (getRefreshTokenKey_injective h).symm
  refine ⟨getRefreshTokenKey_injective,
    fun h => huv (getRefreshTokenKey_injective h), ?_, ?_, ?_, ?_⟩
  · simp [login, generateTokens, RedisDB.setex, hkey]
  · simp [refreshToken, generateTokens, RedisDB.setex, hkey]
  · simp [logout, RedisDB.del, hkey]
  · simp [updateHashedRefreshToken, RedisDB.setex, hkey]

/-- C10 witness: user 1's login leaves user 2's (empty) slot empty. -/
theorem per_user_isolation_witness :
    (login 60 1 (initState [])).2.redis (getRefreshTokenKey 2)
      = (initState []).redis (getRefreshTokenKey 2) :=
  (per_user_isolation 60 1 2 "h" (initState []) (by decide)).2.2.1

/-- C1: in any reachable state (stored hashes come from earlier signings) in
which validateRefreshToken accepts oldRaw for user u, after refreshToken(u)
completes the old raw credential is rejected with Unauthorized — the slot now
holds the hash of the new token, against which oldRaw cannot verify — and the
newly returned refresh token is accepted, yielding the (id : u) payload. -/
theorem rotation_invalidates_old_token (ttl u : Nat) (oldRaw : String)
    (st : AuthState) (hfresh : FreshTokens st)
    (hold : validateRefreshToken u oldRaw st = .ok ⟨u⟩) :
    validateRefreshToken u oldRaw (refreshToken ttl u st).2
        = .error (.unauthorized "Invalid Refresh Token")
    ∧ validateRefreshToken u (refreshToken ttl u st).1.refreshToken
        (refreshToken ttl u st).2 = .ok ⟨u⟩ := by
  have hstored : ∃ e, st.redis (getRefreshTokenKey u) = some e
      ∧ e.value = hashRefreshSecret oldRaw := by
    unfold validateRefreshToken getHashedRefreshToken RedisDB.get at hold
    cases hre : st.redis (getRefreshTokenKey u) with
    | none => rw [hre] at hold; simp at hold
    | some e =>
      rw [hre] at hold
      cases hv : verifyRefreshSecret e.value oldRaw with
      | false => simp [hv] at hold
      | true => exact ⟨e, rfl, verifyRefreshSecret_eq_true.mp hv⟩
  obtain ⟨e, hre, hev⟩ := hstored
  have hne : oldRaw ≠ signJwt refreshJwtConfig u st.clock := by
    intro heq
    have hlt := hfresh (getRefreshTokenKey u) e hre u st.clock (by rw [hev, heq])
    omega
  have hvf : verifyRefreshSecret
      (hashRefreshSecret (signJwt refreshJwtConfig u st.clock)) oldRaw = false := by
    cases hb : verifyRefreshSecret
        (hashRefreshSecret (signJwt refreshJwtConfig u st.clock)) oldRaw with
    | false => rfl
    | true =>
      have hhash := verifyRefreshSecret_eq_true.mp hb
      exact absurd (hashRefreshSecret_injective hhash).symm hne
  constructor
  · simp [validateRefreshToken, getHashedRefreshToken, RedisDB.get, refreshToken,
      generateTokens, RedisDB.setex, hvf]
  · simp [validateRefreshToken, getHashedRefreshToken, RedisDB.get, refreshToken,
      generateTokens, RedisDB.setex, verifyRefreshSecret]

/-- C1 witness: user 7 logs in, the issued refresh token validates, then a
rotation happens; the pre-rotation token is now rejected and the post-rotation
one accepted. -/
theorem rotation_invalidates_old_token_witness :
    validateRefreshToken 7 (login 60 7 (initState [])).1.refreshToken
        (refreshToken 60 7 (login 60 7 (initState [])).2).2
      = .error (.unauthorized "Invalid Refresh Token")
    ∧ validateRefreshToken 7
        (refreshToken 60 7 (login 60 7 (initState [])).2).1.refreshToken
        (refreshToken 60 7 (login 60 7 (initState [])).2).2 = .ok ⟨7⟩ :=
  rotation_invalidates_old_token 60 7 (login 60 7 (initState [])).1.refreshToken
    (login 60 7 (initState [])).2
    (freshTokens_login 60 7 (initState []) (freshTokens_init []))
    rfl

end StepUp
